import Mathlib

/-!
Shallow embedding of the calendar-sync core of the NFL_calendar_sync backend.

The embedded code lives in `src/backend/google_calendar_service.py`
(`sync_games_to_calendar`, `_create_event_from_game`) and the orchestration
endpoints in `src/backend/main.py` (`sync_calendar`,
`handle_calendar_callback`).

Modelling conventions:
* Python strings are modelled as `List Char` (`Str`); `str.split`,
  `str.strip`, `str.startswith` are implemented directly on char lists.
* `datetime.strptime(s, "%Y-%m-%d")` / `("%H:%M")` are modelled after
  CPython's `_strptime` regexes plus `datetime`'s range validation:
  `%Y` is exactly four digits with year at least 1, `%m`/`%d`/`%H`/`%M`
  are one- or two-digit numbers in range (day checked against the length
  of the month), and the whole string must be consumed.
* A Python dict is modelled as an insertion-ordered association list with
  in-place overwrite (`dictInsert` / `dictGet`).
* External calendar event ids are opaque tokens in the source; they are
  modelled as naturals handed out by the calendar state (`CalState.nextId`).
* Exceptions are modelled with `Option`: a raised exception is `none`.
* The provider's `timeMin=now` filter on the listing call is provider-side
  behaviour; the listing is modelled as returning the calendar state's
  events (the "all listed events are future events" situation, which is the
  one the claims quantify over).
-/

/-- Python text modelled as a list of characters. -/
abbrev Str : Type := List Char

/-- Literal helper: the char list of a Lean string literal. -/
def ofS (s : String) : Str := s.data

/-- Model of Python `str.split(sep)` for a single-character separator
(`line.split(':')`, `description.split('\n')` in the source). -/
def splitOnChar (c : Char) : Str → List Str
  | [] => [[]]
  | x :: xs =>
    let r := splitOnChar c xs
    if x = c then [] :: r
    else
      match r with
      | [] => [[x]]
      | y :: ys => (x :: y) :: ys

/-- The whitespace characters stripped by Python `str.strip()`. -/
def pySpace (c : Char) : Bool :=
  c = ' ' || c = '\t' || c = '\n' || c = '\r' || c = '\x0b' || c = '\x0c'

/-- Model of Python `str.strip()`. -/
def pyStrip (s : Str) : Str :=
  ((s.dropWhile pySpace).reverse.dropWhile pySpace).reverse

/-- Model of Python `str.startswith(pre)`. -/
def pyStartswith : Str → Str → Bool
  | [], _ => true
  | _ :: _, [] => false
  | p :: ps, c :: cs => if p = c then pyStartswith ps cs else false

/-- Numeric value of a digit run. -/
def digitsToNat (s : Str) : Nat :=
  s.foldl (fun n c => n * 10 + (c.toNat - 48)) 0

/-- A calendar date as produced by `strptime("%Y-%m-%d")`. -/
structure PyDate where
  y : Nat
  m : Nat
  d : Nat
deriving DecidableEq, Repr

/-- A time of day as produced by `strptime("%H:%M")`. -/
structure PyTime where
  h : Nat
  min : Nat
deriving DecidableEq, Repr

def isLeap (y : Nat) : Bool :=
  (y % 4 = 0 && y % 100 ≠ 0) || y % 400 = 0

def daysInMonth (y m : Nat) : Nat :=
  if m = 2 then (if isLeap y then 29 else 28)
  else if m = 4 || m = 6 || m = 9 || m = 11 then 30
  else 31

/-- Model of `datetime.strptime(s, "%Y-%m-%d")` in
`_create_event_from_game`: four-digit year (at least 0001), one- or
two-digit month 1..12, one- or two-digit day valid for the month, nothing
left over. Returns `none` where the source raises `ValueError`. -/
def strptime_Ymd (s : Str) : Option PyDate :=
  match splitOnChar '-' s with
  | [ys, ms, ds] =>
    if ys.length = 4 && ys.all Char.isDigit &&
       (ms.length = 1 || ms.length = 2) && ms.all Char.isDigit &&
       (ds.length = 1 || ds.length = 2) && ds.all Char.isDigit then
      let y := digitsToNat ys
      let m := digitsToNat ms
      let d := digitsToNat ds
      if 1 ≤ y && 1 ≤ m && m ≤ 12 && 1 ≤ d && d ≤ daysInMonth y m then
        some ⟨y, m, d⟩
      else none
    else none
  | _ => none

/-- Model of `datetime.strptime(s, "%H:%M").time()`: one- or two-digit
hour 0..23, one- or two-digit minute 0..59, nothing left over. -/
def strptime_HM (s : Str) : Option PyTime :=
  match splitOnChar ':' s with
  | [hs, ms] =>
    if (hs.length = 1 || hs.length = 2) && hs.all Char.isDigit &&
       (ms.length = 1 || ms.length = 2) && ms.all Char.isDigit then
      let h := digitsToNat hs
      let mi := digitsToNat ms
      if h ≤ 23 && mi ≤ 59 then some ⟨h, mi⟩ else none
    else none
  | _ => none

/-- `datetime.combine(game_date, game_time)`. -/
structure PyDateTime where
  y : Nat
  m : Nat
  d : Nat
  h : Nat
  min : Nat
deriving DecidableEq, Repr

/-- `start_time + timedelta(hours=3)` (day/month/year carry as in
`datetime` arithmetic). -/
def addHours3 (t : PyDateTime) : PyDateTime :=
  if t.h + 3 ≤ 23 then { t with h := t.h + 3 }
  else
    let h := t.h + 3 - 24
    if t.d + 1 ≤ daysInMonth t.y t.m then { t with d := t.d + 1, h := h }
    else if t.m + 1 ≤ 12 then { t with m := t.m + 1, d := 1, h := h }
    else { y := t.y + 1, m := 1, d := 1, h := h, min := t.min }

def digitChar (n : Nat) : Char := Char.ofNat (48 + n)

/-- Decimal rendering of a natural (fuel-structural so that it reduces
in the kernel). -/
def natToStrAux : Nat → Nat → Str
  | 0, _ => []
  | fuel + 1, n =>
    if n < 10 then [digitChar n]
    else natToStrAux fuel (n / 10) ++ [digitChar (n % 10)]

def natToStr (n : Nat) : Str := natToStrAux (n + 1) n

/-- Two-digit zero padding, as in `datetime.isoformat`. -/
def pad2 (n : Nat) : Str :=
  if n < 10 then '0' :: natToStr n else natToStr n

/-- Four-digit zero padding for the year, as in `datetime.isoformat`. -/
def pad4 (n : Nat) : Str :=
  if n < 10 then ofS "000" ++ natToStr n
  else if n < 100 then ofS "00" ++ natToStr n
  else if n < 1000 then '0' :: natToStr n
  else natToStr n

/-- `datetime.isoformat()` for a whole-second datetime. -/
def isoformat (t : PyDateTime) : Str :=
  pad4 t.y ++ ['-'] ++ pad2 t.m ++ ['-'] ++ pad2 t.d ++ ['T'] ++
  pad2 t.h ++ [':'] ++ pad2 t.min ++ ofS ":00"

/-- A game record as consumed by the Reconciler (the schema of §3 of the
design: `game_id`, `season`, `week`, `game_date`, `game_time`, team
names).  `season` and `week` are modelled by their printed form (the
source only ever interpolates them into f-strings).  The team names are
`Option` because the source looks them up with `teams['away']['name']` /
`teams['home']['name']`, which raises when the name is absent. -/
structure Game where
  game_id : Str
  season : Str
  week : Str
  game_date : Str
  game_time : Str
  away_name : Option Str
  home_name : Option Str
deriving DecidableEq, Repr

/-- The provider event shape produced by `_create_event_from_game`. -/
structure EventBody where
  summary : Str
  location : Str
  description : Str
  startDateTime : Str
  endDateTime : Str
  timeZone : Str
  reminderPopupMinutes : Nat
  reminderEmailMinutes : Nat
  colorId : Str
deriving DecidableEq, Repr

/-- The description f-string of `_create_event_from_game`:
`"Week {week} NFL Game\n{away} at {home}\n\nSeason: {season}\nGame ID: {game_id}"`. -/
def descriptionOf (week away home season gid : Str) : Str :=
  ofS "Week " ++ week ++ ofS " NFL Game" ++ ['\n'] ++
  away ++ ofS " at " ++ home ++ ['\n'] ++ ['\n'] ++
  ofS "Season: " ++ season ++ ['\n'] ++
  ofS "Game ID: " ++ gid

/-- `GoogleCalendarService._create_event_from_game`.  Returns `none`
where the source raises (`ValueError` from `strptime`, `KeyError` from a
missing team name) — the caller catches any exception per game. -/
def create_event_from_game (g : Game) : Option EventBody := do
  let gd ← strptime_Ymd g.game_date
  let gt ← strptime_HM g.game_time
  let start : PyDateTime := ⟨gd.y, gd.m, gd.d, gt.h, gt.min⟩
  let stop := addHours3 start
  let away ← g.away_name
  let home ← g.home_name
  some
    { summary := ofS "NFL: " ++ away ++ ofS " vs " ++ home
      location := home ++ ofS " Stadium"
      description := descriptionOf g.week away home g.season g.game_id
      startDateTime := isoformat start
      endDateTime := isoformat stop
      timeZone := ofS "America/New_York"
      reminderPopupMinutes := 60
      reminderEmailMinutes := 1440
      colorId := ofS "2" }

/-- The tag-parsing step of `sync_games_to_calendar` applied to one line
of a description: `if line.startswith('Game ID:'): line.split(':')[1].strip()`. -/
def lineTag (line : Str) : Option Str :=
  if pyStartswith (ofS "Game ID:") line then
    some (pyStrip ((splitOnChar ':' line).getD 1 []))
  else none

/-- The description-scanning loop of `sync_games_to_calendar` (lines
184–191): walk the lines of the description and take the first one that
starts with `Game ID:`; `none` when no line carries the tag (the event is
then treated as unrelated). -/
def extractGameId (desc : Str) : Option Str :=
  (splitOnChar '\n' desc).findSome? lineTag

/-- An element of the listing result as used by the index-building loop:
the source reads only `event['id']` and `event['description']`, and the
description key may be absent (`if 'description' in event`). -/
structure ListedEvent where
  id : Nat
  description : Option Str
deriving DecidableEq, Repr

/-- The game id recovered from a listed event, if any. -/
def evTag (e : ListedEvent) : Option Str :=
  match e.description with
  | none => none
  | some d => extractGameId d

/-- Python dict assignment `d[k] = v` on an insertion-ordered association
list: overwrite in place, else append. -/
def dictInsert : List (Str × Nat) → Str → Nat → List (Str × Nat)
  | [], k, v => [(k, v)]
  | p :: ps, k, v => if p.1 = k then (k, v) :: ps else p :: dictInsert ps k v

/-- Python dict lookup `d.get(k)` / `k in d`. -/
def dictGet (d : List (Str × Nat)) (k : Str) : Option Nat :=
  (d.find? (fun p => p.1 = k)).map (fun p => p.2)

/-- The index-building loop of `sync_games_to_calendar` (lines 183–191):
`existing_events[game_id] = event['id']` for each listed event whose
description carries a tag. -/
def buildIndex (evts : List ListedEvent) : List (Str × Nat) :=
  evts.foldl
    (fun d e =>
      match evTag e with
      | some gid => dictInsert d gid e.id
      | none => d)
    []

/-- Spec-side description of the index (§4.1 step 2 as read by claim C10):
the id of the event appearing last in listing order among those whose
description carries a tag for `gid`. -/
def lastTaggedId (evts : List ListedEvent) (gid : Str) : Option Nat :=
  (evts.reverse.find? (fun e => evTag e = some gid)).map (fun e => e.id)

/-- The external calendar state: the events it holds (id, body) and the
next fresh event id the provider will hand out. -/
structure CalState where
  events : List (Nat × EventBody)
  nextId : Nat
deriving DecidableEq, Repr

/-- The listing result for a calendar state (every stored event is
returned with its description). -/
def toListed (s : CalState) : List ListedEvent :=
  s.events.map (fun p => ⟨p.1, some p.2.description⟩)

/-- `service.events().update(...)`: replace the body stored under an
event id. -/
def updState (evts : List (Nat × EventBody)) (eid : Nat) (ev : EventBody) :
    List (Nat × EventBody) :=
  evts.map (fun p => if p.1 = eid then (p.1, ev) else p)

/-- One Calendar Client call, as recorded in the run trace. -/
inductive Op where
  | list
  | create (body : EventBody)
  | update (eventId : Nat) (body : EventBody)
deriving DecidableEq, Repr

def Op.isCreate : Op → Bool
  | .create _ => true
  | _ => false

def Op.isUpdate : Op → Bool
  | .update _ _ => true
  | _ => false

/-- Accumulator of the per-game loop: calendar state, `synced_count`, the
trace of client calls made so far, and the number of mutation calls
attempted so far (used to address the failure oracle). -/
structure LoopSt where
  cal : CalState
  count : Nat
  trace : List Op
  callIdx : Nat
deriving Repr

/-- The body of the `for game in games:` loop of `sync_games_to_calendar`
(lines 197–222).  `index` is the pre-fetched `existing_events` dict and
`mutFails k` tells whether the `k`-th create/update call raises (the
per-game `except` block then logs and continues without counting). -/
def syncStep (index : List (Str × Nat)) (mutFails : Nat → Bool)
    (st : LoopSt) (g : Game) : LoopSt :=
  match create_event_from_game g with
  | none => st
  | some ev =>
    match dictGet index g.game_id with
    | some eid =>
      let tr := st.trace ++ [Op.update eid ev]
      if mutFails st.callIdx then
        { st with trace := tr, callIdx := st.callIdx + 1 }
      else
        { cal := { st.cal with events := updState st.cal.events eid ev }
          count := st.count + 1, trace := tr, callIdx := st.callIdx + 1 }
    | none =>
      let tr := st.trace ++ [Op.create ev]
      if mutFails st.callIdx then
        { st with trace := tr, callIdx := st.callIdx + 1 }
      else
        { cal := { events := st.cal.events ++ [(st.cal.nextId, ev)]
                   nextId := st.cal.nextId + 1 }
          count := st.count + 1, trace := tr, callIdx := st.callIdx + 1 }

/-- Result of one reconciliation run. -/
structure SyncResult where
  state : CalState
  count : Nat
  trace : List Op
deriving Repr

/-- `GoogleCalendarService.sync_games_to_calendar` (lines 169–225).
The listing call is always attempted; when it raises
(`listFails = true`) the surrounding `try/except` logs a warning and the
run continues with the empty `existing_events` dict.  Each game is then
processed by `syncStep`, and the final `synced_count` is returned. -/
def sync_games_to_calendar (listFails : Bool) (mutFails : Nat → Bool)
    (s : CalState) (games : List Game) : SyncResult :=
  let index := if listFails then [] else buildIndex (toListed s)
  let final := games.foldl (syncStep index mutFails)
    { cal := s, count := 0, trace := [Op.list], callIdx := 0 }
  { state := final.cal, count := final.count, trace := final.trace }

/-- Number of events in a calendar state whose description carries the
tag of `gid` — the quantity the `(external_calendar_id, game_id)`
uniqueness invariant is about. -/
def taggedCount (evts : List (Nat × EventBody)) (gid : Str) : Nat :=
  evts.countP (fun p => decide (extractGameId p.2.description = some gid))

/-- Well-formedness of a calendar state: event ids are distinct and below
the next fresh id. -/
def WFState (s : CalState) : Prop :=
  (s.events.map Prod.fst).Nodup ∧ ∀ p ∈ s.events, p.1 < s.nextId

/-- Spec-side count of distinct `game_id`s in an input list. -/
def distinctGids (games : List Game) : Nat :=
  (games.map Game.game_id).dedup.length

/-- The events appended by a run of create calls: bodies `bs` stored
under consecutive fresh ids starting at `n`. -/
def enumFrom (n : Nat) : List EventBody → List (Nat × EventBody)
  | [] => []
  | b :: bs => (n, b) :: enumFrom (n + 1) bs

/-- Per-user `last_sync` record of the SyncLink (the Sync Orchestrator
persists `{timestamp, games_synced_count}`; the count is what the claims
are about). -/
structure SyncLinkRec where
  calendar_id : Str
  last_sync : Option Nat
deriving DecidableEq, Repr

/-- Outcome of the `/calendar/sync` endpoint as seen by the caller. -/
inductive SyncOutcome where
  | httpError
  | ok (count : Nat)
deriving DecidableEq, Repr

/-- `sync_calendar` in `src/backend/main.py` (lines 379–425), threading
only the state the claim is about.  `connected` is the
`google_credentials` presence check, `teams`/`games` are the store
lookups, and `reconcileOutcome` is the result of the
`sync_games_to_calendar` call (`none` = it raised; the outer `except`
then returns an HTTP 500 without touching the SyncLink). -/
def sync_calendar (connected : Bool) (teams : List Str) (games : List Game)
    (reconcileOutcome : Option Nat) (link : SyncLinkRec) :
    SyncLinkRec × SyncOutcome :=
  if !connected then (link, .httpError)
  else if teams.isEmpty then (link, .httpError)
  else if games.isEmpty then (link, .ok 0)
  else
    match reconcileOutcome with
    | none => (link, .httpError)
    | some c => ({ link with last_sync := some c }, .ok c)

/-- Outcome of the `/calendar/callback` endpoint (a redirect URL). -/
inductive CallbackOutcome where
  | setupFailed
  | setupSuccess
deriving DecidableEq, Repr

/-- `handle_calendar_callback` in `src/backend/main.py` (lines 308–377),
restricted to the `last_sync` state.  `setupOk` bundles the state-decode,
OAuth, calendar-creation and credential-store steps that precede the
sync; when the user has teams, the reconciler is called and a raise
(`reconcileOutcome = none`) falls into the outer `except`, which
redirects with `setup=failed` without persisting `last_sync`. -/
def handle_calendar_callback (setupOk : Bool) (teams : List Str)
    (reconcileOutcome : Option Nat) (lastSync : Option Nat) :
    Option Nat × CallbackOutcome :=
  if !setupOk then (lastSync, .setupFailed)
  else if teams.isEmpty then (lastSync, .setupSuccess)
  else
    match reconcileOutcome with
    | none => (lastSync, .setupFailed)
    | some c => (some c, .setupSuccess)

/-- Failure oracle of a run where no client call fails. -/
def noFail : Nat → Bool := fun _ => false

/-- A calendar with no events. -/
def emptyCal : CalState := { events := [], nextId := 0 }

/-- A well-formed sample game used by concrete witnesses. -/
def sampleGame (gid week : String) : Game :=
  { game_id := ofS gid, season := ofS "2024", week := ofS week
    game_date := ofS "2024-10-06", game_time := ofS "13:00"
    away_name := some (ofS "Jets"), home_name := some (ofS "Bills") }

/-- A listed event carrying only a description, used by concrete
witnesses for the index behaviour. -/
def taggedBody (desc : String) : EventBody :=
  { summary := [], location := [], description := ofS desc
    startDateTime := [], endDateTime := [], timeZone := []
    reminderPopupMinutes := 0, reminderEmailMinutes := 0, colorId := [] }

/-- A calendar holding two events whose descriptions are both tagged
`Game ID: G1`, the later one stored under id 9. -/
def dupCal : CalState :=
  { events := [(7, taggedBody "Game ID: G1"), (9, taggedBody "Game ID: G1")]
    nextId := 10 }

example : (strptime_Ymd (ofS "2024-10-06")) = some ⟨2024, 10, 6⟩ := by decide
example : (strptime_Ymd (ofS "2024-02-30")) = none := by decide
example : (strptime_Ymd (ofS "2024-1-2")) = some ⟨2024, 1, 2⟩ := by decide
example : (strptime_HM (ofS "13:00")) = some ⟨13, 0⟩ := by decide
example : (strptime_HM (ofS "24:00")) = none := by decide
example :
    (create_event_from_game
      { game_id := ofS "G1", season := ofS "2024", week := ofS "5"
        game_date := ofS "2024-10-06", game_time := ofS "13:00"
        away_name := some (ofS "Jets"), home_name := some (ofS "Bills") }).isSome = true := by
  decide

/-! ### Helper lemmas: splitting, stripping, tag parsing -/

theorem splitOnChar_eq_single {c : Char} : ∀ {a : Str}, c ∉ a → splitOnChar c a = [a]
  | [], _ => rfl
  | x :: xs, h => by
    have hx : ¬ x = c := fun hxc => h (hxc ▸ List.mem_cons_self x xs)
    have ih := splitOnChar_eq_single (a := xs) (fun hm => h (List.mem_cons_of_mem _ hm))
    simp [splitOnChar, hx, ih]

theorem splitOnChar_append_cons {c : Char} :
    ∀ {a : Str} (b : Str), c ∉ a →
      splitOnChar c (a ++ c :: b) = a :: splitOnChar c b
  | [], b, _ => by simp [splitOnChar]
  | x :: xs, b, h => by
    have hx : ¬ x = c := fun hxc => h (hxc ▸ List.mem_cons_self x xs)
    have ih := splitOnChar_append_cons (a := xs) b
      (fun hm => h (List.mem_cons_of_mem _ hm))
    simp [splitOnChar, hx, ih]

theorem pyStartswith_append : ∀ (p r : Str), pyStartswith p (p ++ r) = true
  | [], _ => rfl
  | x :: xs, r => by simp [pyStartswith, pyStartswith_append xs r]

theorem pyStrip_space_cons (s : Str) : pyStrip (' ' :: s) = pyStrip s := by
  simp [pyStrip, List.dropWhile_cons, pySpace]

theorem lineTag_tagline {gid : Str} (h1 : ':' ∉ gid) (h2 : pyStrip gid = gid) :
    lineTag (ofS "Game ID: " ++ gid) = some gid := by
  have hpre : pyStartswith (ofS "Game ID:") (ofS "Game ID: " ++ gid) = true := by
    have hdec : ofS "Game ID: " ++ gid = ofS "Game ID:" ++ (' ' :: gid) := rfl
    rw [hdec]
    exact pyStartswith_append _ _
  have hsg : ':' ∉ ' ' :: gid := by
    intro hm
    rcases List.mem_cons.1 hm with h | h
    · exact absurd h (by decide)
    · exact h1 h
  have hsplit : splitOnChar ':' (ofS "Game ID: " ++ gid) = [ofS "Game ID", ' ' :: gid] := by
    have hdec : ofS "Game ID: " ++ gid = ofS "Game ID" ++ ':' :: (' ' :: gid) := rfl
    rw [hdec, splitOnChar_append_cons _ (by decide), splitOnChar_eq_single hsg]
  simp [lineTag, hpre, hsplit, pyStrip_space_cons, h2]

theorem lineTag_eq_none {line : Str}
    (h : pyStartswith (ofS "Game ID:") line = false) : lineTag line = none := by
  simp [lineTag, h]

theorem splitOnChar_cons_self (c : Char) (b : Str) :
    splitOnChar c (c :: b) = [] :: splitOnChar c b := by
  simp [splitOnChar]

theorem descriptionOf_split {week away home season gid : Str}
    (hw : '\n' ∉ week) (ha : '\n' ∉ away) (hh : '\n' ∉ home)
    (hs : '\n' ∉ season) (hg : '\n' ∉ gid) :
    splitOnChar '\n' (descriptionOf week away home season gid) =
      [ofS "Week " ++ (week ++ ofS " NFL Game"),
       away ++ (ofS " at " ++ home), [],
       ofS "Season: " ++ season,
       ofS "Game ID: " ++ gid] := by
  have h1 : '\n' ∉ ofS "Week " ++ (week ++ ofS " NFL Game") := by
    intro hm
    rcases List.mem_append.1 hm with hm | hm
    · exact absurd hm (by decide)
    · rcases List.mem_append.1 hm with hm | hm
      · exact hw hm
      · exact absurd hm (by decide)
  have h2 : '\n' ∉ away ++ (ofS " at " ++ home) := by
    intro hm
    rcases List.mem_append.1 hm with hm | hm
    · exact ha hm
    · rcases List.mem_append.1 hm with hm | hm
      · exact absurd hm (by decide)
      · exact hh hm
  have h3 : '\n' ∉ ofS "Season: " ++ season := by
    intro hm
    rcases List.mem_append.1 hm with hm | hm
    · exact absurd hm (by decide)
    · exact hs hm
  have h4 : '\n' ∉ ofS "Game ID: " ++ gid := by
    intro hm
    rcases List.mem_append.1 hm with hm | hm
    · exact absurd hm (by decide)
    · exact hg hm
  have e : descriptionOf week away home season gid =
      (ofS "Week " ++ (week ++ ofS " NFL Game")) ++ '\n' ::
        ((away ++ (ofS " at " ++ home)) ++ '\n' :: ('\n' ::
          ((ofS "Season: " ++ season) ++ '\n' :: (ofS "Game ID: " ++ gid)))) := by
    simp [descriptionOf, List.append_assoc]
  rw [e, splitOnChar_append_cons _ h1, splitOnChar_append_cons _ h2,
    splitOnChar_cons_self, splitOnChar_append_cons _ h3,
    splitOnChar_eq_single h4]

theorem create_event_description {g : Game} {ev : EventBody} {aw hm : Str}
    (ha : g.away_name = some aw) (hh : g.home_name = some hm)
    (htr : create_event_from_game g = some ev) :
    ev.description = descriptionOf g.week aw hm g.season g.game_id := by
  cases hd : strptime_Ymd g.game_date with
  | none => simp [create_event_from_game, hd] at htr
  | some gd =>
    cases ht : strptime_HM g.game_time with
    | none => simp [create_event_from_game, hd, ht] at htr
    | some gt =>
      simp [create_event_from_game, hd, ht, ha, hh] at htr
      rw [← htr]

/-- Claim C8: `_create_event_from_game` fails exactly when `game_date` or
`game_time` fails to parse in the literal `%Y-%m-%d` / `%H:%M` formats or
a team name is absent; every well-formed game transforms normally. -/
theorem C8_transform_failure_iff (g : Game) :
    create_event_from_game g = none ↔
      strptime_Ymd g.game_date = none ∨ strptime_HM g.game_time = none ∨
      g.away_name = none ∨ g.home_name = none := by
  cases hd : strptime_Ymd g.game_date <;> cases ht : strptime_HM g.game_time <;>
    cases ha : g.away_name <;> cases hh : g.home_name <;>
      simp [create_event_from_game, hd, ht, ha, hh]

/-- Claim C6 (amended): the tag round-trip holds for every transformed
game whose `game_id` contains no colon and no newline and carries no
surrounding whitespace, whose interpolated fields are newline-free, and
whose matchup line does not itself start with the tag label; re-parsing
the event description then recovers exactly the `game_id`.  (The
unamended claim fails already for a `game_id` containing a colon, see the
counterexample.) -/
theorem C6_tag_roundtrip_amended {g : Game} {ev : EventBody} {aw hm : Str}
    (ha : g.away_name = some aw) (hh : g.home_name = some hm)
    (htr : create_event_from_game g = some ev)
    (hcolon : ':' ∉ g.game_id) (hstrip : pyStrip g.game_id = g.game_id)
    (hw : '\n' ∉ g.week) (hna : '\n' ∉ aw) (hnh : '\n' ∉ hm)
    (hns : '\n' ∉ g.season) (hng : '\n' ∉ g.game_id)
    (hline2 : pyStartswith (ofS "Game ID:") (aw ++ (ofS " at " ++ hm)) = false) :
    extractGameId ev.description = some g.game_id := by
  rw [create_event_description ha hh htr]
  unfold extractGameId
  rw [descriptionOf_split hw hna hnh hns hng]
  have t1 : lineTag (ofS "Week " ++ (g.week ++ ofS " NFL Game")) = none := rfl
  have t2 : lineTag (aw ++ (ofS " at " ++ hm)) = none := lineTag_eq_none hline2
  have t3 : lineTag ([] : Str) = none := rfl
  have t4 : lineTag (ofS "Season: " ++ g.season) = none := rfl
  have t5 : lineTag (ofS "Game ID: " ++ g.game_id) = some g.game_id :=
    lineTag_tagline hcolon hstrip
  simp [List.findSome?_cons, t1, t2, t3, t4, t5]

/-- Claim C6 witness: a concrete clean game round-trips. -/
theorem C6_witness :
    ∃ ev, create_event_from_game (sampleGame "G1" "5") = some ev ∧
      extractGameId ev.description = some (ofS "G1") := by
  obtain ⟨ev, hev⟩ : ∃ ev, create_event_from_game (sampleGame "G1" "5") = some ev :=
    ⟨_, rfl⟩
  exact ⟨ev, hev,
    C6_tag_roundtrip_amended rfl rfl hev (by decide) (by decide) (by decide)
      (by decide) (by decide) (by decide) (by decide) (by decide)⟩

/-- Claim C6 counterexample: for a game whose `game_id` contains a colon
the transform succeeds but re-parsing the description recovers only the
part before the colon, not the `game_id` that produced it. -/
theorem C6_counterexample :
    (create_event_from_game (sampleGame "a:b" "5")).map
        (fun ev => extractGameId ev.description) = some (some (ofS "a")) ∧
      some (ofS "a") ≠ some (ofS "a:b") := by
  constructor
  · decide
  · decide

/-- Claim C7 (amended): on the empty game list the run returns 0 and
performs no create and no update call, but it does make the one listing
call (the source lists existing events before it ever looks at the game
list).  (The unamended "no calls at all" fails, see the counterexample.) -/
theorem C7_empty_amended (listFails : Bool) (mutFails : Nat → Bool) (s : CalState) :
    sync_games_to_calendar listFails mutFails s [] =
      { state := s, count := 0, trace := [Op.list] } := by
  cases listFails <;> rfl

/-- Claim C7 counterexample: on the empty game list the Calendar Client
is still called — the trace of the run is the listing call, not empty. -/
theorem C7_counterexample :
    (sync_games_to_calendar false noFail emptyCal []).trace = [Op.list] ∧
      [Op.list] ≠ ([] : List Op) := by
  constructor
  · rfl
  · decide

theorem foldl_syncStep_nilIndex_trace (f : Nat → Bool) :
    ∀ (games : List Game) (st : LoopSt),
      (games.foldl (syncStep [] f) st).trace =
        st.trace ++ (games.filterMap create_event_from_game).map Op.create
  | [], st => by simp
  | g :: gs, st => by
    rw [List.foldl_cons, foldl_syncStep_nilIndex_trace f gs]
    cases hev : create_event_from_game g with
    | none => simp [syncStep, hev]
    | some ev =>
      cases hf : f st.callIdx <;>
        simp [syncStep, hev, hf, dictGet, List.filterMap_cons]

/-- Claim C4 (amended): a failure of the initial listing call does not
abort the run — the `except` around the listing only logs a warning, the
index stays empty, and every game whose transform succeeds is then given
a create call (no updates), after which a count is returned.  (The
unamended "aborts the whole run" fails, see the counterexample.) -/
theorem C4_list_failure_amended (mutFails : Nat → Bool) (s : CalState)
    (games : List Game) :
    (sync_games_to_calendar true mutFails s games).trace =
      Op.list :: (games.filterMap create_event_from_game).map Op.create :=
  foldl_syncStep_nilIndex_trace mutFails games
    { cal := s, count := 0, trace := [Op.list], callIdx := 0 }

/-- Claim C4 counterexample: with a failing listing call and one
well-formed input game the run is not aborted — it performs a create call
and returns the count 1. -/
theorem C4_counterexample :
    (sync_games_to_calendar true noFail emptyCal [sampleGame "G1" "5"]).count = 1 ∧
      (sync_games_to_calendar true noFail emptyCal
        [sampleGame "G1" "5"]).trace.countP Op.isCreate = 1 := by
  constructor
  · decide
  · decide

/-- Claim C3 (amended): the source performs no deduplication by
`game_id`: against an empty calendar, two input records sharing a
`game_id` each get their own create call, in input order — two events are
created, the first reflecting the earlier record and the second the later
record.  (The unamended "exactly one event, last-write-wins" fails, see
the counterexample.) -/
theorem C3_no_dedup_amended (g1 g2 : Game) (ev1 ev2 : EventBody)
    (_hgid : g1.game_id = g2.game_id)
    (h1 : create_event_from_game g1 = some ev1)
    (h2 : create_event_from_game g2 = some ev2) :
    sync_games_to_calendar false noFail emptyCal [g1, g2] =
      { state := { events := [(0, ev1), (1, ev2)], nextId := 2 }
        count := 2
        trace := [Op.list, Op.create ev1, Op.create ev2] } := by
  simp [sync_games_to_calendar, emptyCal, buildIndex, toListed, syncStep,
    h1, h2, dictGet, noFail]

/-- Claim C3 witness: two concrete records sharing `game_id` "G1" with
different `week` fields both get created against the empty calendar. -/
theorem C3_witness :
    ∃ ev1 ev2,
      create_event_from_game (sampleGame "G1" "5") = some ev1 ∧
      create_event_from_game (sampleGame "G1" "6") = some ev2 ∧
      sync_games_to_calendar false noFail emptyCal
          [sampleGame "G1" "5", sampleGame "G1" "6"] =
        { state := { events := [(0, ev1), (1, ev2)], nextId := 2 }
          count := 2
          trace := [Op.list, Op.create ev1, Op.create ev2] } := by
  obtain ⟨ev1, h1⟩ : ∃ ev, create_event_from_game (sampleGame "G1" "5") = some ev :=
    ⟨_, rfl⟩
  obtain ⟨ev2, h2⟩ : ∃ ev, create_event_from_game (sampleGame "G1" "6") = some ev :=
    ⟨_, rfl⟩
  exact ⟨ev1, ev2, h1, h2,
    C3_no_dedup_amended (sampleGame "G1" "5") (sampleGame "G1" "6") ev1 ev2 rfl h1 h2⟩

/-- Claim C3 counterexample: two input records sharing a `game_id`
against an empty calendar produce two create calls and two tagged events,
not the single deduplicated event the claim demands. -/
theorem C3_counterexample :
    (sync_games_to_calendar false noFail emptyCal
        [sampleGame "G1" "5", sampleGame "G1" "6"]).trace.countP Op.isCreate = 2 ∧
      (2 : Nat) ≠ 1 := by
  constructor
  · decide
  · decide

/-- Claim C9: the Sync Orchestrator persists `last_sync` exactly when the
Reconciler call returned a count — in `/calendar/sync` a raising
reconcile leaves the stored link untouched while a returned count `c` is
persisted as `last_sync = c`, and likewise in the OAuth-callback initial
sync. -/
theorem C9_last_sync_persistence (connected : Bool) (teams : List Str)
    (games : List Game) (c : Nat) (link : SyncLinkRec) (ls : Option Nat) :
    ((sync_calendar connected teams games none link).1 = link ∧
      (handle_calendar_callback true teams none ls).1 = ls) ∧
    (connected = true → teams ≠ [] → games ≠ [] →
      (sync_calendar connected teams games (some c) link).1.last_sync = some c) ∧
    (teams ≠ [] →
      (handle_calendar_callback true teams (some c) ls).1 = some c) := by
  refine ⟨⟨?_, ?_⟩, ?_, ?_⟩
  · cases connected <;> simp [sync_calendar] <;>
      cases teams <;> simp <;> cases games <;> simp
  · cases teams <;> simp [handle_calendar_callback]
  · intro hc ht hg
    subst hc
    simp [sync_calendar, List.isEmpty_iff, ht, hg]
  · intro ht
    simp [handle_calendar_callback, List.isEmpty_iff, ht]

/-- Claim C9 witness: concrete instantiation — a raising reconcile leaves
a stored `last_sync` of 3 untouched; a reconcile returning 5 persists 5. -/
theorem C9_witness :
    ((sync_calendar true [ofS "NE"] [sampleGame "G1" "5"] none
        { calendar_id := ofS "cal", last_sync := some 3 }).1 =
      { calendar_id := ofS "cal", last_sync := some 3 } ∧
      (handle_calendar_callback true [ofS "NE"] none (some 3)).1 = some 3) ∧
    (sync_calendar true [ofS "NE"] [sampleGame "G1" "5"] (some 5)
        { calendar_id := ofS "cal", last_sync := some 3 }).1.last_sync = some 5 ∧
    (handle_calendar_callback true [ofS "NE"] (some 5) (some 3)).1 = some 5 := by
  have h := C9_last_sync_persistence true [ofS "NE"] [sampleGame "G1" "5"] 5
    { calendar_id := ofS "cal", last_sync := some 3 } (some 3)
  exact ⟨h.1, h.2.1 rfl (by decide) (by simp), h.2.2 (by decide)⟩

theorem countP_range_shift (q : Nat → Bool) (n : Nat) :
    (List.range (n + 1)).countP q =
      (if q 0 then 1 else 0) + (List.range n).countP (fun j => q (j + 1)) := by
  rw [List.range_succ_eq_map, List.countP_cons, List.countP_map]
  have hc : (q ∘ Nat.succ) = (fun j => q (j + 1)) := rfl
  rw [hc]
  omega

theorem syncStep_skip {g : Game} (index : List (Str × Nat)) (f : Nat → Bool)
    (st : LoopSt) (hev : create_event_from_game g = none) :
    syncStep index f st g = st := by
  unfold syncStep
  rw [hev]

theorem syncStep_shape {g : Game} {ev : EventBody} (index : List (Str × Nat))
    (f : Nat → Bool) (st : LoopSt)
    (hev : create_event_from_game g = some ev) :
    (syncStep index f st g).count = st.count + (if f st.callIdx then 0 else 1) ∧
    (syncStep index f st g).callIdx = st.callIdx + 1 ∧
    (syncStep index f st g).trace.length = st.trace.length + 1 := by
  unfold syncStep
  rw [hev]
  cases hd : dictGet index g.game_id <;> cases hf : f st.callIdx <;> simp [hf]

theorem foldl_syncStep_count (index : List (Str × Nat)) (f : Nat → Bool) :
    ∀ (games : List Game) (st : LoopSt),
      (∀ g ∈ games, (create_event_from_game g).isSome) →
      (games.foldl (syncStep index f) st).count =
        st.count + (List.range games.length).countP (fun j => !f (st.callIdx + j)) ∧
      (games.foldl (syncStep index f) st).trace.length =
        st.trace.length + games.length
  | [], st, _ => by simp
  | g :: gs, st, hall => by
    obtain ⟨ev, hev⟩ := Option.isSome_iff_exists.1 (hall g (List.mem_cons_self g gs))
    have htail : ∀ g' ∈ gs, (create_event_from_game g').isSome :=
      fun g' h' => hall g' (List.mem_cons_of_mem _ h')
    obtain ⟨hc, hk, ht⟩ := syncStep_shape index f st hev
    have ih := foldl_syncStep_count index f gs (syncStep index f st g) htail
    rw [List.foldl_cons] at *
    refine ⟨?_, ?_⟩
    · rw [ih.1, hc, hk, List.length_cons, countP_range_shift]
      have he : (fun j => !f (st.callIdx + (j + 1))) =
          (fun j => !f (st.callIdx + 1 + j)) := by
        funext j
        congr 2
        omega
      simp only [Nat.add_zero, he]
      have hswap : ∀ x : Bool, (if (!x) = true then (1 : Nat) else 0) =
          (if x = true then 0 else 1) := by
        intro x
        cases x <;> rfl
      rw [hswap]
      omega
    · rw [ih.2, ht, List.length_cons]
      omega

/-- Claim C5: a per-game Calendar Client failure does not abort the run —
with the mutation-failure oracle `f`, every input game still gets its
create/update attempt (the trace holds one call per game plus the
listing) and the returned count is exactly the number of games whose call
did not fail. -/
theorem C5_partial_failure (f : Nat → Bool) (s : CalState) (games : List Game)
    (hall : ∀ g ∈ games, (create_event_from_game g).isSome) :
    (sync_games_to_calendar false f s games).count =
      (List.range games.length).countP (fun k => !f k) ∧
    (sync_games_to_calendar false f s games).trace.length = games.length + 1 := by
  have h := foldl_syncStep_count (buildIndex (toListed s)) f games
    { cal := s, count := 0, trace := [Op.list], callIdx := 0 } hall
  have he : (fun j => !f (0 + j)) = (fun k => !f k) := by
    funext j
    congr 2
    omega
  constructor
  · have h1 := h.1
    rw [he] at h1
    simp only [List.length_cons, List.length_nil, Nat.zero_add] at h1
    exact h1
  · have h2 := h.2
    simp only [List.length_cons, List.length_nil, Nat.zero_add] at h2
    rw [Nat.add_comm] at h2
    exact h2

/-- Claim C5 witness: the Calendar Client fails on item 2 of 3; items 1
and 3 still succeed, the count is 2, and all three games were attempted. -/
theorem C5_witness :
    (sync_games_to_calendar false (fun k => k == 1) emptyCal
      [sampleGame "G1" "5", sampleGame "G2" "5", sampleGame "G3" "5"]).count = 2 ∧
    (sync_games_to_calendar false (fun k => k == 1) emptyCal
      [sampleGame "G1" "5", sampleGame "G2" "5", sampleGame "G3" "5"]).trace.length = 4 := by
  have h := C5_partial_failure (fun k => k == 1) emptyCal
    [sampleGame "G1" "5", sampleGame "G2" "5", sampleGame "G3" "5"]
    (by decide)
  refine ⟨?_, ?_⟩
  · rw [h.1]
    decide
  · rw [h.2]
    rfl

/-! ### Helper lemmas: the Python dict and the listing index -/

theorem dictGet_insert_self : ∀ (d : List (Str × Nat)) (k : Str) (v : Nat),
    dictGet (dictInsert d k v) k = some v
  | [], k, v => by simp [dictInsert, dictGet]
  | p :: ps, k, v => by
    by_cases h : p.1 = k
    · simp [dictInsert, h, dictGet]
    · simp only [dictInsert, if_neg h]
      rw [dictGet, List.find?_cons_of_neg _ (by simpa using h)]
      exact dictGet_insert_self ps k v

theorem dictGet_insert_other : ∀ (d : List (Str × Nat)) (k k' : Str) (v : Nat),
    k' ≠ k → dictGet (dictInsert d k v) k' = dictGet d k'
  | [], k, k', v, hne => by
    have hne' : ¬ k = k' := fun h => hne h.symm
    simp only [dictInsert, dictGet]
    rw [List.find?_cons_of_neg _ (by simpa using hne')]
  | p :: ps, k, k', v, hne => by
    by_cases h : p.1 = k
    · subst h
      rw [dictInsert, if_pos rfl]
      by_cases h' : p.1 = k'
      · exact absurd h'.symm hne
      · rw [dictGet, List.find?_cons_of_neg _ (by simpa using fun hh => hne hh.symm),
          dictGet, List.find?_cons_of_neg _ (by simpa using h')]
    · rw [dictInsert, if_neg h]
      by_cases h' : p.1 = k'
      · rw [dictGet, List.find?_cons_of_pos _ (by simpa using h'),
          dictGet, List.find?_cons_of_pos _ (by simpa using h')]
      · rw [dictGet, List.find?_cons_of_neg _ (by simpa using h'),
          dictGet, List.find?_cons_of_neg _ (by simpa using h')]
        exact dictGet_insert_other ps k k' v hne

theorem find?_append_eq {α : Type} (p : α → Bool) :
    ∀ (l₁ l₂ : List α),
      (l₁ ++ l₂).find? p =
        match l₁.find? p with
        | some a => some a
        | none => l₂.find? p
  | [], l₂ => by simp
  | a :: l₁, l₂ => by
    cases hpa : p a
    · rw [List.cons_append, List.find?_cons_of_neg _ (by simp [hpa]),
        List.find?_cons_of_neg _ (by simp [hpa])]
      exact find?_append_eq p l₁ l₂
    · rw [List.cons_append, List.find?_cons_of_pos _ hpa,
        List.find?_cons_of_pos _ hpa]

theorem lastTaggedId_cons (e : ListedEvent) (es : List ListedEvent) (gid : Str) :
    lastTaggedId (e :: es) gid =
      match lastTaggedId es gid with
      | some i => some i
      | none => if evTag e = some gid then some e.id else none := by
  unfold lastTaggedId
  rw [List.reverse_cons, find?_append_eq]
  cases hfind : es.reverse.find? (fun x => evTag x = some gid) with
  | some a => simp
  | none =>
    by_cases hp : evTag e = some gid
    · rw [List.find?_cons_of_pos _ (by simpa using hp), if_pos hp]
      simp
    · rw [List.find?_cons_of_neg _ (by simpa using hp), if_neg hp]
      simp

theorem dictGet_buildIndex_aux (gid : Str) :
    ∀ (evts : List ListedEvent) (d : List (Str × Nat)),
      dictGet (evts.foldl
        (fun d e =>
          match evTag e with
          | some g => dictInsert d g e.id
          | none => d) d) gid =
        match lastTaggedId evts gid with
        | some i => some i
        | none => dictGet d gid
  | [], d => by simp [lastTaggedId]
  | e :: es, d => by
    rw [List.foldl_cons, dictGet_buildIndex_aux gid es, lastTaggedId_cons]
    cases hl : lastTaggedId es gid with
    | some i => rfl
    | none =>
      cases ht : evTag e with
      | none => simp
      | some t =>
        by_cases hgt : t = gid
        · subst hgt
          simp [dictGet_insert_self]
        · have hsym : gid ≠ t := fun hh => hgt hh.symm
          rw [dictGet_insert_other d t gid e.id hsym]
          simp [hgt]

/-- The index built from the listing realises the spec-side description:
it maps each `game_id` to the event appearing last in listing order among
those tagged with it (later dict writes overwrite earlier ones). -/
theorem dictGet_buildIndex (evts : List ListedEvent) (gid : Str) :
    dictGet (buildIndex evts) gid = lastTaggedId evts gid := by
  rw [buildIndex, dictGet_buildIndex_aux]
  cases hl : lastTaggedId evts gid <;> simp [dictGet]

/-- Claim C10: when the listing carries two or more events whose
descriptions are tagged with the same `game_id`, (1) the index maps that
`game_id` to the event appearing last in listing order (later dict writes
overwrite earlier ones), (2) only the first tag line within a single
description is used (the loop breaks at the first `Game ID:` line), and
(3) an input game with that `game_id` issues exactly one update call
against that last-listed event, leaving every other event untouched. -/
theorem C10_duplicate_tags :
    (∀ (evts : List ListedEvent) (gid : Str),
      dictGet (buildIndex evts) gid = lastTaggedId evts gid) ∧
    (∀ (line rest : Str), pyStartswith (ofS "Game ID:") line = true →
      '\n' ∉ line →
      extractGameId (line ++ '\n' :: rest) = lineTag line) ∧
    (∀ (s : CalState) (g : Game) (ev : EventBody) (eid : Nat),
      create_event_from_game g = some ev →
      lastTaggedId (toListed s) g.game_id = some eid →
      sync_games_to_calendar false noFail s [g] =
        { state := { events := updState s.events eid ev, nextId := s.nextId }
          count := 1
          trace := [Op.list, Op.update eid ev] } ∧
      ∀ p ∈ s.events, p.1 ≠ eid →
        p ∈ (sync_games_to_calendar false noFail s [g]).state.events) := by
  refine ⟨dictGet_buildIndex, ?_, ?_⟩
  · intro line rest hpre hnl
    unfold extractGameId
    rw [splitOnChar_append_cons _ hnl]
    have hsome : lineTag line =
        some (pyStrip ((splitOnChar ':' line).getD 1 [])) := by
      simp [lineTag, hpre]
    simp [List.findSome?_cons, hsome]
  · intro s g ev eid hev hlast
    have hidx : dictGet (buildIndex (toListed s)) g.game_id = some eid := by
      rw [dictGet_buildIndex]
      exact hlast
    have hstate : sync_games_to_calendar false noFail s [g] =
        { state := { events := updState s.events eid ev, nextId := s.nextId }
          count := 1
          trace := [Op.list, Op.update eid ev] } := by
      simp [sync_games_to_calendar, syncStep, hev, hidx, noFail]
    refine ⟨hstate, ?_⟩
    intro p hp hne
    rw [hstate]
    simp only [updState]
    exact List.mem_map.2 ⟨p, hp, by simp [hne]⟩

/-- Claim C10 witness: a calendar listing two events both tagged `G1`
(ids 7 and 9, in that order) indexes `G1` to 9; a two-tag description
yields its first tag; and syncing a game with id `G1` updates event 9
while event 7 is left untouched. -/
theorem C10_witness :
    dictGet (buildIndex (toListed dupCal)) (ofS "G1") = some 9 ∧
    extractGameId (ofS "Game ID: a" ++ '\n' :: ofS "Game ID: b") = some (ofS "a") ∧
    (∃ ev, create_event_from_game (sampleGame "G1" "5") = some ev ∧
      sync_games_to_calendar false noFail dupCal [sampleGame "G1" "5"] =
        { state := { events := updState dupCal.events 9 ev, nextId := dupCal.nextId }
          count := 1
          trace := [Op.list, Op.update 9 ev] } ∧
      (7, taggedBody "Game ID: G1") ∈
        (sync_games_to_calendar false noFail dupCal [sampleGame "G1" "5"]).state.events) := by
  obtain ⟨h1, h2, h3⟩ := C10_duplicate_tags
  obtain ⟨ev, hev⟩ : ∃ ev, create_event_from_game (sampleGame "G1" "5") = some ev :=
    ⟨_, rfl⟩
  have hlast : lastTaggedId (toListed dupCal) (sampleGame "G1" "5").game_id = some 9 := by
    decide
  have h3' := h3 dupCal (sampleGame "G1" "5") ev 9 hev hlast
  refine ⟨?_, ?_, ev, hev, h3'.1, ?_⟩
  · exact (h1 (toListed dupCal) (ofS "G1")).trans (by decide)
  · exact (h2 (ofS "Game ID: a") (ofS "Game ID: b") (by decide) (by decide)).trans
      (by decide)
  · exact h3'.2 (7, taggedBody "Game ID: G1") (by decide) (by decide)

/-! ### Helper lemmas: run characterisations -/

theorem length_filterMap_of_isSome {α β : Type} {f : α → Option β} :
    ∀ {l : List α}, (∀ a ∈ l, (f a).isSome) → (l.filterMap f).length = l.length
  | [], _ => rfl
  | a :: l, h => by
    obtain ⟨b, hb⟩ := Option.isSome_iff_exists.1 (h a (List.mem_cons_self a l))
    rw [List.filterMap_cons, hb]
    have ih := length_filterMap_of_isSome
      (fun a' ha' => h a' (List.mem_cons_of_mem _ ha'))
    simp [ih]

theorem mem_enumFrom {b : EventBody} :
    ∀ (bs : List EventBody) (n : Nat), b ∈ bs → ∃ i, (i, b) ∈ enumFrom n bs
  | c :: bs, n, hm => by
    rcases List.mem_cons.1 hm with rfl | hm'
    · exact ⟨n, List.mem_cons_self _ _⟩
    · obtain ⟨i, hi⟩ := mem_enumFrom bs (n + 1) hm'
      exact ⟨i, List.mem_cons_of_mem _ hi⟩

theorem find?_isSome_of_mem {α : Type} {p : α → Bool} {a : α} :
    ∀ {l : List α}, a ∈ l → p a = true → (l.find? p).isSome
  | [], hm, _ => absurd hm (List.not_mem_nil a)
  | b :: l, hm, hp => by
    cases hpb : p b
    · rw [List.find?_cons_of_neg _ (by simp [hpb])]
      rcases List.mem_cons.1 hm with rfl | hm'
      · rw [hpb] at hp
        exact absurd hp (by simp)
      · exact find?_isSome_of_mem hm' hp
    · rw [List.find?_cons_of_pos _ hpb]
      rfl

theorem lastTaggedId_isSome_of_mem {evts : List ListedEvent} {e : ListedEvent}
    {gid : Str} (hm : e ∈ evts) (ht : evTag e = some gid) :
    (lastTaggedId evts gid).isSome := by
  have hfind := find?_isSome_of_mem (p := fun x => evTag x = some gid)
    (List.mem_reverse.2 hm) (by simp [ht])
  obtain ⟨a, ha⟩ := Option.isSome_iff_exists.1 hfind
  unfold lastTaggedId
  rw [ha]
  rfl

theorem foldl_syncStep_empty_cal :
    ∀ (games : List Game) (st : LoopSt),
      (games.foldl (syncStep [] noFail) st).cal =
        { events := st.cal.events ++
            enumFrom st.cal.nextId (games.filterMap create_event_from_game)
          nextId := st.cal.nextId +
            (games.filterMap create_event_from_game).length }
  | [], st => by simp [enumFrom]
  | g :: gs, st => by
    rw [List.foldl_cons]
    cases hev : create_event_from_game g with
    | none =>
      rw [syncStep_skip _ _ _ hev, foldl_syncStep_empty_cal gs st]
      simp [List.filterMap_cons, hev]
    | some ev =>
      have hstep : syncStep [] noFail st g =
          { cal := { events := st.cal.events ++ [(st.cal.nextId, ev)]
                     nextId := st.cal.nextId + 1 }
            count := st.count + 1
            trace := st.trace ++ [Op.create ev]
            callIdx := st.callIdx + 1 } := by
        simp [syncStep, hev, dictGet, noFail]
      rw [hstep, foldl_syncStep_empty_cal gs _]
      simp only [List.filterMap_cons, hev, enumFrom, List.length_cons,
        CalState.mk.injEq, List.append_assoc, List.cons_append,
        List.singleton_append, List.nil_append]
      exact ⟨trivial, by omega⟩

theorem foldl_syncStep_allUpdate (index : List (Str × Nat)) :
    ∀ (games : List Game) (st : LoopSt),
      (∀ g ∈ games, (create_event_from_game g).isSome ∧
        (dictGet index g.game_id).isSome) →
      (games.foldl (syncStep index noFail) st).cal.events.length =
          st.cal.events.length ∧
      (games.foldl (syncStep index noFail) st).trace.countP Op.isCreate =
          st.trace.countP Op.isCreate
  | [], st, _ => ⟨rfl, rfl⟩
  | g :: gs, st, hall => by
    obtain ⟨hev', hidx'⟩ := hall g (List.mem_cons_self g gs)
    obtain ⟨ev, hev⟩ := Option.isSome_iff_exists.1 hev'
    obtain ⟨eid, hidx⟩ := Option.isSome_iff_exists.1 hidx'
    have hstep : syncStep index noFail st g =
        { cal := { st.cal with events := updState st.cal.events eid ev }
          count := st.count + 1
          trace := st.trace ++ [Op.update eid ev]
          callIdx := st.callIdx + 1 } := by
      simp [syncStep, hev, hidx, noFail]
    have ih := foldl_syncStep_allUpdate index gs
      { cal := { st.cal with events := updState st.cal.events eid ev }
        count := st.count + 1
        trace := st.trace ++ [Op.update eid ev]
        callIdx := st.callIdx + 1 }
      (fun g' hg' => hall g' (List.mem_cons_of_mem _ hg'))
    rw [List.foldl_cons, hstep]
    refine ⟨?_, ?_⟩
    · rw [ih.1]
      simp [updState]
    · rw [ih.2]
      simp [List.countP_append, Op.isCreate]

theorem length_enumFrom : ∀ (bs : List EventBody) (n : Nat),
    (enumFrom n bs).length = bs.length
  | [], _ => rfl
  | _ :: bs, n => by simp [enumFrom, length_enumFrom bs (n + 1)]

/-- Claim C2 (amended): for a game list with pairwise-distinct
`game_id`s, all of whose records transform successfully with a faithful
description tag, running the reconciler twice from the empty calendar
with a persisting Calendar Client yields a second run with zero create
calls, a full count, and a final calendar holding exactly one event per
distinct `game_id`.  (The unamended "for every game list" fails for lists
with duplicate `game_id`s, see the counterexample.) -/
theorem C2_idempotence_amended (games : List Game)
    (hnd : (games.map Game.game_id).Nodup)
    (hall : ∀ g ∈ games, ∃ ev, create_event_from_game g = some ev ∧
      extractGameId ev.description = some g.game_id) :
    (sync_games_to_calendar false noFail
      (sync_games_to_calendar false noFail emptyCal games).state games).trace.countP
        Op.isCreate = 0 ∧
    (sync_games_to_calendar false noFail
      (sync_games_to_calendar false noFail emptyCal games).state games).count =
      games.length ∧
    (sync_games_to_calendar false noFail
      (sync_games_to_calendar false noFail emptyCal games).state
        games).state.events.length = distinctGids games := by
  have hsome : ∀ g ∈ games, (create_event_from_game g).isSome := by
    intro g hg
    obtain ⟨ev, hev, _⟩ := hall g hg
    simp [hev]
  have hr1cal : (sync_games_to_calendar false noFail emptyCal games).state =
      { events := enumFrom 0 (games.filterMap create_event_from_game)
        nextId := (games.filterMap create_event_from_game).length } := by
    have h := foldl_syncStep_empty_cal games
      { cal := emptyCal, count := 0, trace := [Op.list], callIdx := 0 }
    simpa [emptyCal] using h
  have hidx2 : ∀ g ∈ games,
      (dictGet (buildIndex (toListed
        (sync_games_to_calendar false noFail emptyCal games).state))
        g.game_id).isSome := by
    intro g hg
    obtain ⟨ev, hev, htag⟩ := hall g hg
    have hmemtfs : ev ∈ games.filterMap create_event_from_game :=
      List.mem_filterMap.2 ⟨g, hg, hev⟩
    obtain ⟨i, hi⟩ := mem_enumFrom _ 0 hmemtfs
    have hmem : (i, ev) ∈
        (sync_games_to_calendar false noFail emptyCal games).state.events := by
      rw [hr1cal]
      exact hi
    have hml : (⟨i, some ev.description⟩ : ListedEvent) ∈
        toListed (sync_games_to_calendar false noFail emptyCal games).state :=
      List.mem_map.2 ⟨(i, ev), hmem, rfl⟩
    rw [dictGet_buildIndex]
    exact lastTaggedId_isSome_of_mem hml (by simp [evTag, htag])
  have hupd := foldl_syncStep_allUpdate
    (buildIndex (toListed (sync_games_to_calendar false noFail emptyCal games).state))
    games
    { cal := (sync_games_to_calendar false noFail emptyCal games).state
      count := 0, trace := [Op.list], callIdx := 0 }
    (fun g hg => ⟨hsome g hg, hidx2 g hg⟩)
  have hcnt := foldl_syncStep_count
    (buildIndex (toListed (sync_games_to_calendar false noFail emptyCal games).state))
    noFail games
    { cal := (sync_games_to_calendar false noFail emptyCal games).state
      count := 0, trace := [Op.list], callIdx := 0 }
    hsome
  refine ⟨?_, ?_, ?_⟩
  · have h2 := hupd.2
    simpa [Op.isCreate] using h2
  · have h1 := hcnt.1
    have hpred : (fun j => !noFail (0 + j)) = (fun _ : Nat => true) := by
      funext j
      simp [noFail]
    rw [hpred] at h1
    simpa using h1
  · have h1 := hupd.1
    have hlen : (sync_games_to_calendar false noFail
        emptyCal games).state.events.length = games.length := by
      rw [hr1cal]
      simp [length_enumFrom, length_filterMap_of_isSome hsome]
    have hdist : distinctGids games = games.length := by
      rw [distinctGids, List.dedup_eq_self.2 hnd, List.length_map]
    rw [hdist]
    calc (sync_games_to_calendar false noFail
            (sync_games_to_calendar false noFail emptyCal games).state
            games).state.events.length
        = (sync_games_to_calendar false noFail
            emptyCal games).state.events.length := h1
      _ = games.length := hlen

/-- Claim C2 witness: two concrete games with distinct ids; the second
run performs zero creates, counts both games, and the calendar holds two
events. -/
theorem C2_witness :
    (sync_games_to_calendar false noFail
      (sync_games_to_calendar false noFail emptyCal
        [sampleGame "G1" "5", sampleGame "G2" "5"]).state
      [sampleGame "G1" "5", sampleGame "G2" "5"]).trace.countP Op.isCreate = 0 ∧
    (sync_games_to_calendar false noFail
      (sync_games_to_calendar false noFail emptyCal
        [sampleGame "G1" "5", sampleGame "G2" "5"]).state
      [sampleGame "G1" "5", sampleGame "G2" "5"]).count = 2 ∧
    (sync_games_to_calendar false noFail
      (sync_games_to_calendar false noFail emptyCal
        [sampleGame "G1" "5", sampleGame "G2" "5"]).state
      [sampleGame "G1" "5", sampleGame "G2" "5"]).state.events.length = 2 := by
  have hall : ∀ g ∈ [sampleGame "G1" "5", sampleGame "G2" "5"],
      ∃ ev, create_event_from_game g = some ev ∧
        extractGameId ev.description = some g.game_id := by
    intro g hg
    rcases List.mem_cons.1 hg with rfl | hg'
    · exact ⟨_, rfl, by decide⟩
    · rcases List.mem_cons.1 hg' with rfl | hg''
      · exact ⟨_, rfl, by decide⟩
      · exact absurd hg'' (List.not_mem_nil g)
  have h := C2_idempotence_amended [sampleGame "G1" "5", sampleGame "G2" "5"]
    (by decide) hall
  exact ⟨h.1, h.2.1, h.2.2.trans (by decide)⟩

/-- Claim C2 counterexample: for a list with two records sharing one
`game_id`, after two runs the calendar holds two events although the list
has a single distinct `game_id` — the event total exceeds the distinct
count (the second run does issue only updates, but the bound fails). -/
theorem C2_counterexample :
    (sync_games_to_calendar false noFail
      (sync_games_to_calendar false noFail emptyCal
        [sampleGame "G1" "5", sampleGame "G1" "6"]).state
      [sampleGame "G1" "5", sampleGame "G1" "6"]).state.events.length = 2 ∧
    distinctGids [sampleGame "G1" "5", sampleGame "G1" "6"] = 1 ∧
    ¬ ((2 : Nat) ≤ 1) := by
  refine ⟨?_, ?_, ?_⟩
  · decide
  · decide
  · decide

/-! ### Helper lemmas: the per-game-id uniqueness invariant -/

theorem countP_le_one_eq {α : Type} {p : α → Bool} :
    ∀ {l : List α} {a b : α}, l.countP p ≤ 1 → a ∈ l → b ∈ l →
      p a = true → p b = true → a = b
  | [], a, _, _, ha, _, _, _ => absurd ha (List.not_mem_nil a)
  | c :: l, a, b, hc, ha, hb, hpa, hpb => by
    rw [List.countP_cons] at hc
    rcases List.mem_cons.1 ha with rfl | ha'
    · rcases List.mem_cons.1 hb with rfl | hb'
      · rfl
      · exfalso
        have h1 : 0 < l.countP p := List.countP_pos_iff.2 ⟨b, hb', hpb⟩
        have hc1 : l.countP p + 1 ≤ 1 := by simpa [hpa] using hc
        omega
    · rcases List.mem_cons.1 hb with rfl | hb'
      · exfalso
        have h1 : 0 < l.countP p := List.countP_pos_iff.2 ⟨a, ha', hpa⟩
        have hc1 : l.countP p + 1 ≤ 1 := by simpa [hpb] using hc
        omega
      · have hle : l.countP p ≤ 1 := Nat.le_trans (Nat.le_add_right _ _) hc
        exact countP_le_one_eq hle ha' hb' hpa hpb

theorem countP_fst_le_one {l : List (Nat × EventBody)} {eid : Nat}
    (h : (l.map Prod.fst).Nodup) :
    l.countP (fun p => decide (p.1 = eid)) ≤ 1 := by
  induction l with
  | nil => simp
  | cons q l ih =>
    rw [List.map_cons, List.nodup_cons] at h
    rw [List.countP_cons]
    by_cases hq : q.1 = eid
    · have hzero : l.countP (fun p => decide (p.1 = eid)) = 0 := by
        rw [List.countP_eq_zero]
        intro p hp hpe
        simp only [decide_eq_true_eq] at hpe
        have hmem : p.1 ∈ l.map Prod.fst := List.mem_map_of_mem Prod.fst hp
        rw [hpe, ← hq] at hmem
        exact h.1 hmem
      simp [hq, hzero]
    · have := ih h.2
      simpa [hq] using this

theorem updState_map_fst (evts : List (Nat × EventBody)) (eid : Nat)
    (ev : EventBody) :
    (updState evts eid ev).map Prod.fst = evts.map Prod.fst := by
  unfold updState
  rw [List.map_map]
  refine List.map_congr_left ?_
  intro p _
  by_cases h : p.1 = eid <;> simp [h]

theorem taggedCount_append_single (evts : List (Nat × EventBody))
    (x : Nat × EventBody) (gid : Str) :
    taggedCount (evts ++ [x]) gid = taggedCount evts gid +
      (if extractGameId x.2.description = some gid then 1 else 0) := by
  unfold taggedCount
  rw [List.countP_append, List.countP_cons]
  simp

theorem taggedCount_updState_ne {evts : List (Nat × EventBody)} {eid : Nat}
    {ev : EventBody} {gid : Str}
    (hev : ¬ extractGameId ev.description = some gid) :
    taggedCount (updState evts eid ev) gid ≤ taggedCount evts gid := by
  unfold taggedCount updState
  rw [List.countP_map]
  refine List.countP_mono_left ?_
  intro x hx hpx
  by_cases h : x.1 = eid
  · exfalso
    simp [Function.comp, h, hev] at hpx
  · simpa [Function.comp, h] using hpx

theorem taggedCount_updState_self {evts : List (Nat × EventBody)} {eid : Nat}
    {ev : EventBody} {gid : Str}
    (hnodup : (evts.map Prod.fst).Nodup)
    (honly : ∀ p ∈ evts, extractGameId p.2.description = some gid → p.1 = eid) :
    taggedCount (updState evts eid ev) gid ≤ 1 := by
  unfold taggedCount updState
  rw [List.countP_map]
  refine Nat.le_trans (List.countP_mono_left
    (q := fun p => decide (p.1 = eid)) ?_) (countP_fst_le_one hnodup)
  intro x hx hpx
  by_cases h : x.1 = eid
  · simp [h]
  · exfalso
    simp only [Function.comp, if_neg h, decide_eq_true_eq] at hpx
    exact h (honly x hx hpx)

theorem foldl_syncStep_inv (index : List (Str × Nat)) (f : Nat → Bool) :
    ∀ (games : List Game) (st : LoopSt),
      (games.map Game.game_id).Nodup →
      (∀ g ∈ games, ∀ ev, create_event_from_game g = some ev →
        extractGameId ev.description = some g.game_id) →
      (st.cal.events.map Prod.fst).Nodup →
      (∀ p ∈ st.cal.events, p.1 < st.cal.nextId) →
      (∀ gid, taggedCount st.cal.events gid ≤ 1) →
      (∀ g ∈ games,
        (dictGet index g.game_id = none →
          taggedCount st.cal.events g.game_id = 0) ∧
        (∀ eid, dictGet index g.game_id = some eid →
          ∀ p ∈ st.cal.events,
            extractGameId p.2.description = some g.game_id → p.1 = eid)) →
      ∀ gid, taggedCount (games.foldl (syncStep index f) st).cal.events gid ≤ 1
  | [], _, _, _, _, _, hinv, _ => hinv
  | g :: gs, st, hnd, htagOK, hndup, hbound, hinv, hIdx => by
    rw [List.foldl_cons]
    have hgmem : g ∈ g :: gs := List.mem_cons_self g gs
    have hnd' : (gs.map Game.game_id).Nodup := by
      rw [List.map_cons, List.nodup_cons] at hnd
      exact hnd.2
    have hne : ∀ g' ∈ gs, g'.game_id ≠ g.game_id := by
      rw [List.map_cons, List.nodup_cons] at hnd
      intro g' hg' h
      exact hnd.1 (h ▸ List.mem_map_of_mem Game.game_id hg')
    have htagOK' : ∀ g' ∈ gs, ∀ ev, create_event_from_game g' = some ev →
        extractGameId ev.description = some g'.game_id :=
      fun g' h' => htagOK g' (List.mem_cons_of_mem _ h')
    have hIdxTail : ∀ g' ∈ gs,
        (dictGet index g'.game_id = none →
          taggedCount st.cal.events g'.game_id = 0) ∧
        (∀ eid, dictGet index g'.game_id = some eid →
          ∀ p ∈ st.cal.events,
            extractGameId p.2.description = some g'.game_id → p.1 = eid) :=
      fun g' h' => hIdx g' (List.mem_cons_of_mem _ h')
    cases hev : create_event_from_game g with
    | none =>
      rw [syncStep_skip _ _ _ hev]
      exact foldl_syncStep_inv index f gs st hnd' htagOK' hndup hbound hinv hIdxTail
    | some ev =>
      have htag : extractGameId ev.description = some g.game_id :=
        htagOK g hgmem ev hev
      cases hd : dictGet index g.game_id with
      | none =>
        cases hf : f st.callIdx with
        | true =>
          have hstep : syncStep index f st g = { st with
              trace := st.trace ++ [Op.create ev]
              callIdx := st.callIdx + 1 } := by
            simp [syncStep, hev, hd, hf]
          rw [hstep]
          exact foldl_syncStep_inv index f gs _ hnd' htagOK' hndup hbound hinv hIdxTail
        | false =>
          have hstep : syncStep index f st g =
              { cal := { events := st.cal.events ++ [(st.cal.nextId, ev)]
                         nextId := st.cal.nextId + 1 }
                count := st.count + 1
                trace := st.trace ++ [Op.create ev]
                callIdx := st.callIdx + 1 } := by
            simp [syncStep, hev, hd, hf]
          rw [hstep]
          refine foldl_syncStep_inv index f gs _ hnd' htagOK' ?_ ?_ ?_ ?_
          · show ((st.cal.events ++ [(st.cal.nextId, ev)]).map Prod.fst).Nodup
            rw [List.map_append, List.nodup_append]
            refine ⟨hndup, by simp, ?_⟩
            intro a ha hb
            obtain ⟨p, hp, rfl⟩ := List.mem_map.1 ha
            have hlt := hbound p hp
            simp only [List.map_cons, List.map_nil, List.mem_singleton] at hb
            omega
          · show ∀ p ∈ st.cal.events ++ [(st.cal.nextId, ev)],
              p.1 < st.cal.nextId + 1
            intro p hp
            rcases List.mem_append.1 hp with hp' | hp'
            · have := hbound p hp'
              omega
            · rw [List.mem_singleton.1 hp']
              omega
          · show ∀ gid,
              taggedCount (st.cal.events ++ [(st.cal.nextId, ev)]) gid ≤ 1
            intro gid
            rw [taggedCount_append_single]
            by_cases hgid : gid = g.game_id
            · subst hgid
              rw [(hIdx g hgmem).1 hd, if_pos htag]
            · rw [if_neg]
              · have := hinv gid
                omega
              · rw [htag]
                intro hcon
                exact hgid (Option.some.inj hcon).symm
          · intro g' hg'
            have hne' : g'.game_id ≠ g.game_id := hne g' hg'
            have hIdx' := hIdxTail g' hg'
            have hevne : ¬ extractGameId ev.description = some g'.game_id := by
              rw [htag]
              intro hcon
              exact hne' (Option.some.inj hcon).symm
            constructor
            · intro hnone
              show taggedCount (st.cal.events ++ [(st.cal.nextId, ev)])
                g'.game_id = 0
              rw [taggedCount_append_single, hIdx'.1 hnone, if_neg hevne]
            · intro eid' hsome' p hp htagp
              rcases List.mem_append.1 hp with hp' | hp'
              · exact hIdx'.2 eid' hsome' p hp' htagp
              · exfalso
                rw [List.mem_singleton.1 hp'] at htagp
                exact hevne htagp
      | some eid =>
        have honly : ∀ p ∈ st.cal.events,
            extractGameId p.2.description = some g.game_id → p.1 = eid :=
          (hIdx g hgmem).2 eid hd
        cases hf : f st.callIdx with
        | true =>
          have hstep : syncStep index f st g = { st with
              trace := st.trace ++ [Op.update eid ev]
              callIdx := st.callIdx + 1 } := by
            simp [syncStep, hev, hd, hf]
          rw [hstep]
          exact foldl_syncStep_inv index f gs _ hnd' htagOK' hndup hbound hinv hIdxTail
        | false =>
          have hstep : syncStep index f st g =
              { cal := { st.cal with events := updState st.cal.events eid ev }
                count := st.count + 1
                trace := st.trace ++ [Op.update eid ev]
                callIdx := st.callIdx + 1 } := by
            simp [syncStep, hev, hd, hf]
          rw [hstep]
          refine foldl_syncStep_inv index f gs _ hnd' htagOK' ?_ ?_ ?_ ?_
          · show ((updState st.cal.events eid ev).map Prod.fst).Nodup
            rw [updState_map_fst]
            exact hndup
          · show ∀ p ∈ updState st.cal.events eid ev, p.1 < st.cal.nextId
            intro p hp
            obtain ⟨p0, hp0, hpeq⟩ := List.mem_map.1 hp
            have hb := hbound p0 hp0
            have hfst : p.1 = p0.1 := by
              rw [← hpeq]
              by_cases h : p0.1 = eid <;> simp [h]
            omega
          · show ∀ gid, taggedCount (updState st.cal.events eid ev) gid ≤ 1
            intro gid
            by_cases hgid : gid = g.game_id
            · subst hgid
              exact taggedCount_updState_self hndup honly
            · refine Nat.le_trans (taggedCount_updState_ne ?_) (hinv gid)
              rw [htag]
              intro hcon
              exact hgid (Option.some.inj hcon).symm
          · intro g' hg'
            have hne' : g'.game_id ≠ g.game_id := hne g' hg'
            have hIdx' := hIdxTail g' hg'
            have hevne : ¬ extractGameId ev.description = some g'.game_id := by
              rw [htag]
              intro hcon
              exact hne' (Option.some.inj hcon).symm
            constructor
            · intro hnone
              show taggedCount (updState st.cal.events eid ev) g'.game_id = 0
              have h0 := hIdx'.1 hnone
              have hle := @taggedCount_updState_ne st.cal.events eid ev
                g'.game_id hevne
              omega
            · intro eid' hsome' p hp htagp
              obtain ⟨p0, hp0, hpeq⟩ := List.mem_map.1 hp
              subst hpeq
              by_cases h : p0.1 = eid
              · exfalso
                rw [if_pos h] at htagp
                exact hevne htagp
              · rw [if_neg h] at htagp ⊢
                exact hIdx'.2 eid' hsome' p0 hp0 htagp

/-- Claim C1 (amended): with a successful listing, a well-formed calendar
state (distinct event ids below the fresh-id counter, at most one tagged
event per `game_id`), an input list with pairwise-distinct `game_id`s and
faithful description tags, a run preserves the invariant: the resulting
calendar still holds at most one event per `(calendar, game_id)` pair.
(The unamended claim over all inputs fails for a list containing two
records with the same `game_id`, see the counterexample: both records go
through the create branch because the pre-fetched index is not updated
during the run.) -/
theorem C1_uniqueness_amended (f : Nat → Bool) (s : CalState) (games : List Game)
    (hwf1 : (s.events.map Prod.fst).Nodup)
    (hwf2 : ∀ p ∈ s.events, p.1 < s.nextId)
    (hnd : (games.map Game.game_id).Nodup)
    (htagOK : ∀ g ∈ games, ∀ ev, create_event_from_game g = some ev →
      extractGameId ev.description = some g.game_id)
    (hinv : ∀ gid, taggedCount s.events gid ≤ 1) :
    ∀ gid,
      taggedCount (sync_games_to_calendar false f s games).state.events gid ≤ 1 := by
  have hIdx0 : ∀ g ∈ games,
      (dictGet (buildIndex (toListed s)) g.game_id = none →
        taggedCount s.events g.game_id = 0) ∧
      (∀ eid, dictGet (buildIndex (toListed s)) g.game_id = some eid →
        ∀ p ∈ s.events, extractGameId p.2.description = some g.game_id →
          p.1 = eid) := by
    intro g _
    constructor
    · intro hnone
      rw [dictGet_buildIndex] at hnone
      unfold lastTaggedId at hnone
      rw [Option.map_eq_none', List.find?_eq_none] at hnone
      rw [taggedCount, List.countP_eq_zero]
      intro p hp hdec
      have hlist : (⟨p.1, some p.2.description⟩ : ListedEvent) ∈ toListed s :=
        List.mem_map.2 ⟨p, hp, rfl⟩
      have hnot := hnone _ (List.mem_reverse.2 hlist)
      simp only [evTag, decide_eq_true_eq] at hnot hdec
      exact hnot hdec
    · intro eid hsome p hp htagp
      rw [dictGet_buildIndex] at hsome
      unfold lastTaggedId at hsome
      rw [Option.map_eq_some'] at hsome
      obtain ⟨e0, hfind, heid⟩ := hsome
      have he0mem : e0 ∈ toListed s :=
        List.mem_reverse.1 (List.mem_of_find?_eq_some hfind)
      have he0tag : evTag e0 = some g.game_id := by
        simpa using List.find?_some hfind
      obtain ⟨p0, hp0, hpe⟩ := List.mem_map.1 he0mem
      have hp0tag : extractGameId p0.2.description = some g.game_id := by
        rw [← hpe] at he0tag
        simpa [evTag] using he0tag
      have hpeq : p = p0 := countP_le_one_eq (hinv g.game_id) hp hp0
        (by simp [htagp]) (by simp [hp0tag])
      rw [hpeq, ← heid, ← hpe]
  exact foldl_syncStep_inv (buildIndex (toListed s)) f games
    { cal := s, count := 0, trace := [Op.list], callIdx := 0 }
    hnd htagOK hwf1 hwf2 hinv hIdx0

/-- Claim C1 witness: a run with two distinct concrete games from the
empty calendar keeps at most one event tagged `G1`. -/
theorem C1_witness :
    taggedCount (sync_games_to_calendar false noFail emptyCal
      [sampleGame "G1" "5", sampleGame "G2" "5"]).state.events (ofS "G1") ≤ 1 := by
  refine C1_uniqueness_amended noFail emptyCal
    [sampleGame "G1" "5", sampleGame "G2" "5"] ?_ ?_ ?_ ?_ ?_ (ofS "G1")
  · decide
  · intro p hp
    exact absurd hp (List.not_mem_nil p)
  · decide
  · intro g hg ev hev
    rcases List.mem_cons.1 hg with rfl | hg'
    · have hval : create_event_from_game (sampleGame "G1" "5") =
          some ((create_event_from_game (sampleGame "G1" "5")).getD
            (taggedBody "")) := rfl
      rw [hval] at hev
      obtain rfl := Option.some.inj hev
      decide
    · rcases List.mem_cons.1 hg' with rfl | hg''
      · have hval : create_event_from_game (sampleGame "G2" "5") =
            some ((create_event_from_game (sampleGame "G2" "5")).getD
              (taggedBody "")) := rfl
        rw [hval] at hev
        obtain rfl := Option.some.inj hev
        decide
      · exact absurd hg'' (List.not_mem_nil g)
  · intro gid
    simp [taggedCount, emptyCal]

/-- Claim C1 counterexample: an input list holding two records with the
same `game_id` against the empty calendar (which trivially satisfies the
per-pair uniqueness invariant) yields two create calls for that
`game_id` and a calendar with two events tagged `G1` — the invariant is
broken within a single run. -/
theorem C1_counterexample :
    taggedCount (sync_games_to_calendar false noFail emptyCal
      [sampleGame "G1" "5", sampleGame "G1" "6"]).state.events (ofS "G1") = 2 ∧
    (sync_games_to_calendar false noFail emptyCal
      [sampleGame "G1" "5", sampleGame "G1" "6"]).trace.countP Op.isCreate = 2 ∧
    ¬ ((2 : Nat) ≤ 1) := by
  refine ⟨?_, ?_, ?_⟩
  · decide
  · decide
  · decide
